import Mathlib

/-!
Verification of the incremental ingestion pipeline of `refiner-py`
(`src/modules/utils/fetchdata.py`), shallowly embedded in Lean 4.

The embedding models:
  * Python/JSON values flowing through the pipeline (`JsonVal`),
  * the embedding-provider return shapes and their normalization in
    `CivitaiDataFetcher._store_in_qdrant` (`EmbedVal`, `normalizeEmbedding`),
  * item validation in `CivitaiDataFetcher._process_item` (`process_item`),
  * the cursor file in `_save_cursor` / `_get_saved_state`
    (`FileState`, `save_cursor`, `get_saved_state`),
  * the duplicate-checked, sub-batched store writer `_store_in_qdrant`
    (`store_in_qdrant`), and
  * the orchestrator loop `fetch_and_store` (`fetchLoop`).

Machine-level caveats that do not affect any theorem below are noted at the
definition they concern.
-/

/-- A JSON value, as produced by `response.json()` / `json.load` and passed
around as a Python object (dicts keep insertion order; duplicate keys in a
JSON object resolve to the last occurrence, as in Python's parser).
The cursor file only ever receives strings and integers from
`_save_cursor`, so JSON number literals are modelled as integers. -/
inductive JsonVal where
  | null
  | bool (b : Bool)
  | int (n : Int)
  | str (s : String)
  | arr (xs : List JsonVal)
  | obj (kvs : List (String × JsonVal))

/-- `dict.get k` on a Python dict built from a JSON object: the last
binding of the key wins, `none` when the key is absent. -/
def jsonGet (kvs : List (String × JsonVal)) (k : String) : Option JsonVal :=
  kvs.foldl (fun acc kv => if kv.1 = k then some kv.2 else acc) none

/-- `dict.get k d`: lookup with a default. -/
def jsonGetD (kvs : List (String × JsonVal)) (k : String) (d : JsonVal) : JsonVal :=
  (jsonGet kvs k).getD d

mutual
/-- Python `repr` of a JSON-shaped value (used by `str` on containers).
Escaping of quotes inside string literals is not modelled; no theorem
below depends on the rendered text of containers. -/
def pyRepr : JsonVal → String
  | .null => "None"
  | .bool true => "True"
  | .bool false => "False"
  | .int n => toString n
  | .str s => "'" ++ s ++ "'"
  | .arr xs => "[" ++ String.intercalate ", " (pyReprList xs) ++ "]"
  | .obj kvs => "\x7b" ++ String.intercalate ", " (pyReprPairs kvs) ++ "\x7d"

def pyReprList : List JsonVal → List String
  | [] => []
  | x :: xs => pyRepr x :: pyReprList xs

def pyReprPairs : List (String × JsonVal) → List String
  | [] => []
  | kv :: kvs => ("'" ++ kv.1 ++ "': " ++ pyRepr kv.2) :: pyReprPairs kvs
end

/-- Python `str` of a JSON-shaped value: the string itself for strings,
`repr` otherwise. -/
def pyStr : JsonVal → String
  | .str s => s
  | v => pyRepr v

/-- Python truthiness of a JSON-shaped value: `None`, `False`, `0`, `""`,
`[]` and `{}` are falsy, everything else truthy. -/
def pyTruthy : JsonVal → Bool
  | .null => false
  | .bool b => b
  | .int n => n != 0
  | .str s => s != ""
  | .arr xs => !xs.isEmpty
  | .obj kvs => !kvs.isEmpty

/-- The digits of a non-empty all-digit character list, as a natural
number; `none` on an empty list or any non-digit character. -/
def digitsToNat? (ds : List Char) : Option Nat :=
  match ds with
  | [] => Option.none
  | _ => ds.foldl
      (fun acc c => acc.bind
        (fun n => if c.isDigit then some (n * 10 + (c.toNat - 48)) else Option.none))
      (some 0)

/-- Python `int(s)` on a string: an optional sign followed by at least one
ASCII digit parses to the integer, anything else raises `ValueError`
(modelled as `none`).  Surrounding whitespace, underscore digit separators
and non-ASCII digits are not modelled. -/
def pyIntOfString (s : String) : Option Int :=
  match s.data with
  | '-' :: ds => (digitsToNat? ds).map (fun n => -(n : Int))
  | '+' :: ds => (digitsToNat? ds).map (fun n => (n : Int))
  | ds => (digitsToNat? ds).map (fun n => (n : Int))

/-- Python `int(v)` on a JSON-shaped value: identity on integers, `1`/`0`
on booleans, string parsing on strings, `TypeError` (modelled as `none`)
on `None`, lists and dicts. -/
def pyInt : JsonVal → Option Int
  | .int n => some n
  | .bool true => some 1
  | .bool false => some 0
  | .str s => pyIntOfString s
  | _ => none

/-! ## Embedding shapes and their normalization

`FastEmbedEmbedder.get_embedding` may return a plain vector, a sequence of
vectors, or a numpy array.  `_store_in_qdrant` (fetchdata.py lines 221-242)
reshapes the returned value and then converts every element with `float`. -/

/-- A value returned by the embedding provider: a numeric scalar, `None`, a
Python list, or a numpy `ndarray` of numbers (whose `tolist()` yields plain
floats).  Scalars are modelled as rationals; no arithmetic is performed on
them. -/
inductive EmbedVal where
  | num (q : ℚ)
  | none
  | list (xs : List EmbedVal)
  | ndarray (v : List ℚ)

/-- Python `float(x)` on an embedding element: succeeds on numeric scalars,
raises `TypeError`/`ValueError` (modelled as `none`) on `None`, lists and
arrays. -/
def pyFloat : EmbedVal → Option ℚ
  | .num q => some q
  | _ => Option.none

/-- The embedding-shape handling of `_store_in_qdrant`
(fetchdata.py lines 223-242), as one pure function:

* a non-empty Python list whose first element is an `ndarray` is replaced
  by `embeddings[0].tolist()`;
* a non-empty Python list with any other first element is replaced by
  `embeddings[0]` (the code comment assumes this is "already a list");
* an `ndarray` is replaced by its `tolist()`;
* anything else is left unchanged.

The reshaped value is then required to be a list (otherwise the record is
skipped with an "Invalid embedding format" log, modelled as `none`), and
every element is converted with `float` (a conversion failure also skips
the record, modelled as `none`). -/
def normalizeEmbedding (e : EmbedVal) : Option (List ℚ) :=
  let e' : EmbedVal :=
    match e with
    | .list (x :: _) =>
      match x with
      | .ndarray v => .list (v.map EmbedVal.num)
      | _ => x
    | .ndarray v => .list (v.map EmbedVal.num)
    | other => other
  match e' with
  | .list ys => ys.mapM pyFloat
  | _ => Option.none

/-! ## Record validation: `CivitaiDataFetcher._process_item`
(fetchdata.py lines 121-183) -/

/-- `ALLOWED_MODELS` (fetchdata.py line 25). -/
def ALLOWED_MODELS : List String := ["Illustrious", "Flux.1 D", "Pony"]

/-- `BATCH_SIZE` (fetchdata.py line 26). -/
def BATCH_SIZE : Nat := 200

/-- The per-item rejection reasons of `_process_item`, one per logged
early-return branch, in source order. -/
inductive Reason where
  | invalidItemFormat
  | noId
  | invalidIdFormat
  | noBaseModel
  | unsupportedModel
  | invalidMeta
  | noPrompt
  deriving DecidableEq

/-- The nested `meta` mapping of a processed record: each generation
parameter is fetched with `meta.get(...)` (default `None`, modelled by
`JsonVal.null` when absent). -/
structure MetaRecord where
  seed : JsonVal
  steps : JsonVal
  cfg_scale : JsonVal
  sampler : JsonVal
  width : JsonVal
  height : JsonVal

/-- A processed record as built by `_process_item` (fetchdata.py lines
162-177): `id` is the coerced integer, `model_name` the allow-listed base
model string; the remaining fields are passed through as Python values. -/
structure CanonicalRecord where
  id : Int
  url : JsonVal
  prompt : JsonVal
  negative_prompt : JsonVal
  model_name : String
  created_at : JsonVal
  meta : MetaRecord

/-- `x in ALLOWED_MODELS` for a Python value: string equality against the
allow-list; a non-string value is never a member. -/
def inAllowedModels : JsonVal → Bool
  | .str s => ALLOWED_MODELS.contains s
  | _ => false

/-- `CivitaiDataFetcher._process_item` (fetchdata.py lines 121-183),
returning the rejection reason instead of logging it (`Except.error r`
stands for `return None` after the log line for `r`; the source returns
the record or `None`).  Checks, in source order:

1. the item must be a dict (`isinstance(item, dict)`);
2. `item.get('id')` must be truthy (`if not item_id`), then coercible via
   `int(str(item_id))`;
3. `item.get('baseModel')` must be truthy, then a member of
   `ALLOWED_MODELS`;
4. `item.get('meta')` must be a dict;
5. `meta.get('prompt')` must be truthy.

The record construction itself (dict `get`s with defaults) cannot raise,
so the surrounding `try` contributes no further rejection. -/
def process_item (item : JsonVal) : Except Reason CanonicalRecord :=
  match item with
  | .obj kvs =>
    let item_id := (jsonGet kvs "id").getD .null
    if !pyTruthy item_id then .error .noId
    else
      match pyIntOfString (pyStr item_id) with
      | Option.none => .error .invalidIdFormat
      | some idInt =>
        let base_model := (jsonGet kvs "baseModel").getD .null
        if !pyTruthy base_model then .error .noBaseModel
        else if !inAllowedModels base_model then .error .unsupportedModel
        else
          match (jsonGet kvs "meta").getD .null with
          | .obj metaKvs =>
            let prompt := (jsonGet metaKvs "prompt").getD .null
            if !pyTruthy prompt then .error .noPrompt
            else
              .ok
                { id := idInt
                  url := jsonGetD kvs "url" (.str "")
                  prompt := prompt
                  negative_prompt := jsonGetD metaKvs "negativePrompt" (.str "")
                  model_name :=
                    match base_model with
                    | .str s => s
                    | _ => ""
                  created_at := jsonGetD kvs "createdAt" (.str "")
                  meta :=
                    { seed := jsonGetD metaKvs "seed" .null
                      steps := jsonGetD metaKvs "steps" .null
                      cfg_scale := jsonGetD metaKvs "cfgScale" .null
                      sampler := jsonGetD metaKvs "sampler" .null
                      width := jsonGetD metaKvs "width" .null
                      height := jsonGetD metaKvs "height" .null } }
          | _ => .error .invalidMeta
  | _ => .error .invalidItemFormat

/-! ## Cursor persistence: `_save_cursor` / `_get_saved_state`
(fetchdata.py lines 86-119) -/

/-- The observable state of the cursor file `modules/utils/tempfile.json`:
absent, present but unreadable (`open`/read raises), present but not valid
JSON (carrying the raw text left behind), or a parsed JSON document. -/
inductive FileState where
  | absent
  | unreadable
  | malformed (raw : String)
  | content (j : JsonVal)

/-- The JSON document `_save_cursor` writes:
`{"cursor": cursor, "total_processed": total_processed}`. -/
def cursorJson (cursor : String) (total_processed : Int) : JsonVal :=
  .obj [("cursor", .str cursor), ("total_processed", .int total_processed)]

/-- How a call to `_save_cursor` interacts with the filesystem.  The source
opens the target file with mode `'w'` (truncating it in place) and then
`json.dump`s into it; there is no write-to-temp-then-rename step.

* `ok`: the write completes.
* `failBeforeOpen`: `os.makedirs` or `open` raises before the file is
  touched.
* `failDuringWrite raw`: `open('w')` already truncated the file and the
  dump raised after emitting `raw`.  A strict prefix of the indented JSON
  document being written is never itself a complete valid JSON document
  (the object's closing brace is its last character), so the file is left
  malformed with that prefix as content. -/
inductive SaveOutcome where
  | ok
  | failBeforeOpen
  | failDuringWrite (raw : String)

/-- `CivitaiDataFetcher._save_cursor` (fetchdata.py lines 86-100) as a
filesystem transformer.  All exceptions are caught and logged inside the
function, so a save never raises to its caller; `outcome` injects where the
underlying I/O fails. -/
def save_cursor (fs : FileState) (cursor : String) (total_processed : Int) :
    SaveOutcome → FileState
  | .ok => .content (cursorJson cursor total_processed)
  | .failBeforeOpen => fs
  | .failDuringWrite raw => .malformed raw

/-- `CivitaiDataFetcher._get_saved_state` (fetchdata.py lines 102-119):
returns `(cursor, total_processed)` together with the file state it leaves
behind.

* absent file: the `os.path.exists` guard fails, returns `('', 0)`;
* unreadable file: `open`/read raises, the outer handler returns `('', 0)`;
* invalid JSON: `json.load` raises `JSONDecodeError`, the handler resets
  the file via `_save_cursor('', 0)` (modelled as a completed write; its
  own failure modes are exercised separately through `save_cursor`) and
  returns `('', 0)`;
* a JSON document that is not an object: `data.get` raises
  `AttributeError`, caught by the outer handler, returns `('', 0)`;
* an object: `cursor` is `str(data.get('cursor', ''))`, and
  `int(data.get('total_processed', 0))` either yields the total or raises
  (`TypeError`/`ValueError`), in which case the outer handler returns
  `('', 0)`. -/
def get_saved_state (fs : FileState) : (String × Int) × FileState :=
  match fs with
  | .absent => (("", 0), fs)
  | .unreadable => (("", 0), fs)
  | .malformed _ => (("", 0), .content (cursorJson "" 0))
  | .content j =>
    match j with
    | .obj kvs =>
      let cursor := pyStr (jsonGetD kvs "cursor" (.str ""))
      match pyInt (jsonGetD kvs "total_processed" (.int 0)) with
      | some total => ((cursor, total), fs)
      | Option.none => (("", 0), fs)
    | _ => (("", 0), fs)

/-! ## Store writer: `CivitaiDataFetcher._check_duplicate` and
`_store_in_qdrant` (fetchdata.py lines 185-289) -/

/-- A Qdrant point as built at fetchdata.py lines 246-250: the record id,
its normalized embedding vector, and the record as payload. -/
structure Point where
  id : Int
  vector : List ℚ
  payload : CanonicalRecord

/-- The vector store's collection: the sequence of stored points. -/
abbrev Store := List Point

/-- `CivitaiDataFetcher._check_duplicate` (fetchdata.py lines 185-206):
a scroll with a filter matching the payload field `id` against the item id;
duplicate iff at least one point matches. -/
def check_duplicate (s : Store) (item_id : Int) : Bool :=
  s.any (fun p => p.payload.id == item_id)

/-- Upsert of a single point: Qdrant overwrites every stored point whose
point id equals the new point's id, and inserts the point otherwise. -/
def upsertPoint (s : Store) (p : Point) : Store :=
  if s.any (fun q => q.id == p.id) then
    s.map (fun q => if q.id == p.id then p else q)
  else
    s ++ [p]

/-- `qdrant_client.upsert` of a list of points, in order. -/
def upsertPoints (s : Store) (ps : List Point) : Store :=
  ps.foldl upsertPoint s

/-- The first loop of `_store_in_qdrant` (fetchdata.py lines 214-255):
for each record, in order, skip it when `_check_duplicate` finds its id in
the store (counting it), otherwise embed its prompt, normalize the
embedding, and append a point; a record whose embedding does not normalize
is skipped with an error log.  The `PointStruct` constructor call is
wrapped in a `try` in the source but cannot fail given an integer id and a
float list, so no rejection is modelled there.  Duplicate checks run
against the store as it was when the call started: upserts happen only
after this loop.  Returns the accumulated points (in order) and the
skipped-duplicate count. -/
def buildPoints (emb : JsonVal → EmbedVal) (s : Store) :
    List CanonicalRecord → List Point × Nat
  | [] => ([], 0)
  | r :: rs =>
    let rest := buildPoints emb s rs
    if check_duplicate s r.id then
      (rest.1, rest.2 + 1)
    else
      match normalizeEmbedding (emb r.prompt) with
      | some v => (⟨r.id, v, r⟩ :: rest.1, rest.2)
      | Option.none => rest

/-- `points[i:i+50]` for `i in range(0, len(points), 50)`
(fetchdata.py lines 267-269): the points split into sub-batches of 50. -/
def chunk50 (ps : List Point) : List (List Point) :=
  if ps.isEmpty then []
  else ps.take 50 :: chunk50 (ps.drop 50)
termination_by ps.length
decreasing_by
  cases ps with
  | nil => simp_all
  | cons a l =>
    simp only [List.length_drop, List.length_cons]
    omega

/-- Result of submitting the sub-batches (fetchdata.py lines 266-283). -/
structure WriteOutcome where
  store : Store
  raised : Bool
  submitted : List (List Point)

/-- The sub-batch loop of `_store_in_qdrant` (fetchdata.py lines 266-283):
sub-batches are upserted in order; `fails i` injects an upsert exception on
the `i`-th sub-batch of this call, in which case nothing of that sub-batch
is committed, the remaining sub-batches are not submitted, and the
exception is re-raised (lines 279-283) — already-submitted sub-batches stay
committed. -/
def runSubBatches (fails : Nat → Bool) (s : Store) :
    List (List Point) → Nat → WriteOutcome
  | [], _ => ⟨s, false, []⟩
  | c :: cs, idx =>
    if fails idx then ⟨s, true, []⟩
    else
      let rest := runSubBatches fails (upsertPoints s c) cs (idx + 1)
      ⟨rest.store, rest.raised, c :: rest.submitted⟩

/-- The value a call to `_store_in_qdrant` hands back to its caller. -/
inductive PyReturn where
  | none
  | counts (stored skipped_duplicate : Nat)
  deriving DecidableEq

/-- Observable result of one `_store_in_qdrant` call. -/
structure StoreResult where
  /-- The store after the call (partial progress is retained on failure). -/
  store : Store
  /-- `true` when a sub-batch upsert raised and the exception propagated. -/
  raised : Bool
  /-- The sub-batches actually submitted, in order. -/
  submitted : List (List Point)
  /-- `len(points)`: the new-point count appearing in the log lines at
  fetchdata.py lines 258/285. -/
  storedCount : Nat
  /-- The skipped-duplicate count appearing in the same log lines. -/
  skippedCount : Nat
  /-- What the function returns to its caller when it does not raise: the
  source is annotated `-> None` and has no `return` statement, so the
  caller always receives `None`; the stored/skipped counts exist only in
  the log lines. -/
  returned : PyReturn

/-- `CivitaiDataFetcher._store_in_qdrant` (fetchdata.py lines 208-289):
duplicate-check and embed each record (`buildPoints`), then upsert the new
points in sub-batches of 50 (`runSubBatches`).  When `points` is empty the
source only logs (line 285) and performs no upsert, which coincides with
running zero sub-batches. -/
def store_in_qdrant (emb : JsonVal → EmbedVal) (fails : Nat → Bool)
    (s : Store) (records : List CanonicalRecord) : StoreResult :=
  let bp := buildPoints emb s records
  let w := runSubBatches fails s (chunk50 bp.1) 0
  { store := w.store
    raised := w.raised
    submitted := w.submitted
    storedCount := bp.1.length
    skippedCount := bp.2
    returned := PyReturn.none }

/-! ## Orchestrator: `CivitaiDataFetcher.fetch_and_store`
(fetchdata.py lines 291-367) -/

/-- The outcome of one `requests.get` against the source API for a given
`(cursor, limit)` pair.

* `httpError`: network failure or `raise_for_status` raises — the
  exception is not caught inside `fetch_and_store` and propagates out.
* `invalidFormat`: the body is not a dict with an `'items'` key
  (lines 327-329) — logged, loop breaks.
* `page items next`: a well-formed page; `next` is
  `metadata.nextCursor`, with `""` standing for an absent/empty cursor
  (the source reads it once with default `''` for saving and once with
  default `None` for the loop; both defaults are falsy and are saved as
  `''`, so the collapse is observation-equivalent). -/
inductive FetchResult where
  | httpError
  | invalidFormat
  | page (items : List JsonVal) (next : String)

/-- The environment a run executes against: the paginated source API, the
embedding provider, and the upsert failure schedule (`subFails b i` means
the `i`-th sub-batch of the store call made for the `b`-th loop iteration
raises). -/
structure ApiEnv where
  api : String → Nat → FetchResult
  emb : JsonVal → EmbedVal
  subFails : Nat → Nat → Bool

/-- The mutable state of one `fetch_and_store` run: the vector store, the
cursor file, the in-memory `cursor` variable, the per-run
`total_processed` counter, and the trace of `(cursor, limit)` fetch
requests issued so far. -/
structure RunState where
  store : Store
  file : FileState
  cursor : String
  total_processed : Nat
  requests : List (String × Nat)

/-- How one iteration of the `while` body ends: continue looping, break /
fall out of the loop (a normal finish), or an uncaught exception. -/
inductive StepResult where
  | next (st : RunState)
  | stop (st : RunState)
  | raised (st : RunState)

/-- One iteration of the `while total_processed < target_count` body
(fetchdata.py lines 303-365), to be entered only when the guard holds:

* `batch_size = min(BATCH_SIZE, target_count - total_processed)`;
* a fetch request `(cursor, batch_size)` is issued; an HTTP error
  propagates (uncaught), an invalid body or an empty item list breaks;
* each item runs through `_process_item`; the valid records are batched;
* when at least one record is valid, `_store_in_qdrant` runs; a raise
  from it is caught at lines 354-356 and breaks the run (the partially
  written store remains; neither `total_processed` nor the cursor file is
  updated); on success `total_processed` grows and the cursor file is
  written with the page's `nextCursor` and `prev_processed +
  total_processed` (the save is modelled as completing; its failure modes
  are exercised through `save_cursor` directly);
* when the page has zero valid records, nothing is stored and the cursor
  file is not written;
* finally the in-memory cursor advances to `nextCursor`, and a falsy
  `nextCursor` breaks. -/
def loopBody (env : ApiEnv) (target : Nat) (prev_processed : Int)
    (batchIdx : Nat) (st : RunState) : StepResult :=
  let batch_size := min BATCH_SIZE (target - st.total_processed)
  let st := { st with requests := st.requests ++ [(st.cursor, batch_size)] }
  match env.api st.cursor batch_size with
  | .httpError => .raised st
  | .invalidFormat => .stop st
  | .page items next =>
    if items.isEmpty then .stop st
    else
      let processed := items.filterMap (fun it => (process_item it).toOption)
      if processed.isEmpty then
        if next = "" then .stop { st with cursor := next }
        else .next { st with cursor := next }
      else
        let res := store_in_qdrant env.emb (env.subFails batchIdx) st.store processed
        if res.raised then
          .stop { st with store := res.store }
        else
          let total := st.total_processed + processed.length
          let st :=
            { st with
                store := res.store
                total_processed := total
                file := save_cursor st.file next (prev_processed + total) .ok }
          if next = "" then .stop { st with cursor := next }
          else .next { st with cursor := next }

/-- The `while` loop of `fetch_and_store`, driven by fuel (the source loop
is not a priori terminating: a cyclic cursor chain with no valid records
loops forever, so the model charges one fuel per iteration; running out of
fuel is an artifact and is reported like a normal exit).  Returns the final
state and whether an exception propagated. -/
def fetchLoop (env : ApiEnv) (target : Nat) (prev_processed : Int) :
    Nat → Nat → RunState → RunState × Bool
  | 0, _, st => (st, false)
  | fuel + 1, batchIdx, st =>
    if st.total_processed < target then
      match loopBody env target prev_processed batchIdx st with
      | .next st' => fetchLoop env target prev_processed fuel (batchIdx + 1) st'
      | .stop st' => (st', false)
      | .raised st' => (st', true)
    else (st, false)

/-- `CivitaiDataFetcher.fetch_and_store` (fetchdata.py lines 291-367):
read the saved state (cursor and previous cumulative count), reset the
per-run `total_processed` to zero, and run the fetch loop. -/
def fetch_and_store (env : ApiEnv) (target : Nat) (fuel : Nat)
    (file0 : FileState) (store0 : Store) : RunState × Bool :=
  let loaded := get_saved_state file0
  fetchLoop env target loaded.1.2 fuel 0
    { store := store0
      file := loaded.2
      cursor := loaded.1.1
      total_processed := 0
      requests := [] }

/-! ## Analysis definitions -/

/-- Every stored point's payload id agrees with its point id (true of every
point this pipeline creates: both are set to the record's id). -/
def StoreWF (s : Store) : Prop := ∀ p ∈ s, p.payload.id = p.id

/-- The stored point ids are pairwise distinct. -/
def StoreUniqueIds (s : Store) : Prop := (s.map Point.id).Nodup

/-- Some stored point has point id `i`. -/
def memId (s : Store) (i : Int) : Bool := s.any (fun p => p.id == i)

/-- How many stored points have point id `i`. -/
def idCount (s : Store) (i : Int) : Nat :=
  (s.filter (fun p => p.id == i)).length

/-- Extract the state carried by a loop-step result. -/
def stepState : StepResult → RunState
  | .next st => st
  | .stop st => st
  | .raised st => st

/-! ## Sample values used as concrete witnesses -/

/-- A meta block with every generation parameter absent. -/
def sampleMeta : MetaRecord := ⟨.null, .null, .null, .null, .null, .null⟩

/-- A concrete processed record, as `_process_item` would emit for an item
with id 7, base model `Pony` and prompt `a cat`. -/
def sampleRecord : CanonicalRecord :=
  { id := 7
    url := .str ""
    prompt := .str "a cat"
    negative_prompt := .str ""
    model_name := "Pony"
    created_at := .str ""
    meta := sampleMeta }

/-- An embedding provider that returns a singleton sequence containing one
numpy vector — a shape the write path normalizes successfully. -/
def goodEmbedder : JsonVal → EmbedVal := fun _ => .list [.ndarray [1, 2]]

/-- An embedding provider that returns `None` — a shape the write path
cannot normalize. -/
def badEmbedder : JsonVal → EmbedVal := fun _ => EmbedVal.none

/-- An environment whose API always answers with an invalid body. -/
def stubEnv : ApiEnv :=
  { api := fun _ _ => .invalidFormat
    emb := badEmbedder
    subFails := fun _ _ => false }

/-- An environment whose API returns one page holding a single item with no
id — a page with zero valid records. -/
def zeroValidEnv : ApiEnv :=
  { api := fun _ _ => .page [.obj []] "p1"
    emb := badEmbedder
    subFails := fun _ _ => false }

/-- A run state at cursor `c0` with nothing fetched or stored yet. -/
def sampleRunState : RunState :=
  { store := []
    file := .absent
    cursor := "c0"
    total_processed := 0
    requests := [] }

/-! ## Helper lemmas -/

theorem pyStr_int (n : Int) : pyStr (.int n) = toString n := by
  simp [pyStr, pyRepr]

theorem mapM_pyFloat_map_num (v : List ℚ) :
    (v.map EmbedVal.num).mapM pyFloat = some v := by
  induction v with
  | nil => rfl
  | cons q v ih => rw [List.map_cons, List.mapM_cons, ih]; rfl

theorem normalizeEmbedding_singleton_ndarray (v : List ℚ) :
    normalizeEmbedding (.list [.ndarray v]) = some v :=
  mapM_pyFloat_map_num v

theorem normalizeEmbedding_singleton_list (v : List ℚ) :
    normalizeEmbedding (.list [.list (v.map EmbedVal.num)]) = some v :=
  mapM_pyFloat_map_num v

theorem normalizeEmbedding_ndarray (v : List ℚ) :
    normalizeEmbedding (.ndarray v) = some v :=
  mapM_pyFloat_map_num v

theorem normalizeEmbedding_flat_list (v : List ℚ) (hv : v ≠ []) :
    normalizeEmbedding (.list (v.map EmbedVal.num)) = Option.none := by
  cases v with
  | nil => exact absurd rfl hv
  | cons q v => rfl

theorem buildPoints_skips_bad_embedding
    (emb : JsonVal → EmbedVal) (s : Store) (rs : List CanonicalRecord)
    (r : CanonicalRecord)
    (hbad : normalizeEmbedding (emb r.prompt) = Option.none)
    (hdup : check_duplicate s r.id = false) :
    buildPoints emb s (r :: rs) = buildPoints emb s rs := by
  simp [buildPoints, hbad, hdup]

theorem upsertPoints_cons (s : Store) (p : Point) (ps : List Point) :
    upsertPoints s (p :: ps) = upsertPoints (upsertPoint s p) ps := rfl

theorem upsertPoint_map_id (s : Store) (p : Point) :
    (upsertPoint s p).map Point.id =
      if s.any (fun q => q.id == p.id) then s.map Point.id
      else s.map Point.id ++ [p.id] := by
  unfold upsertPoint
  split
  · rw [List.map_map]
    apply List.map_congr_left
    intro q _
    by_cases h0 : q.id = p.id
    · simp [h0]
    · simp [h0]
  · simp

theorem memId_eq_ids (s : Store) (i : Int) :
    memId s i = (s.map Point.id).any (fun x => x == i) := by
  unfold memId
  induction s with
  | nil => rfl
  | cons p s ih => rw [List.map_cons, List.any_cons, List.any_cons, ih]

theorem memId_upsertPoint (s : Store) (p : Point) (i : Int) :
    memId (upsertPoint s p) i = (memId s i || p.id == i) := by
  rw [memId_eq_ids, memId_eq_ids, upsertPoint_map_id]
  split
  · rename_i h
    by_cases hpi : p.id == i
    · obtain ⟨q, hq, hqid⟩ := List.any_eq_true.mp h
      have hq' : q.id = p.id := by simpa using hqid
      have hpi' : p.id = i := by simpa using hpi
      have hmem : (s.map Point.id).any (fun x => x == i) = true :=
        List.any_eq_true.mpr ⟨q.id, List.mem_map_of_mem _ hq, by simp [hq', hpi']⟩
      simp [hmem]
    · simp [hpi]
  · simp [List.any_append]

theorem memId_upsertPoints (s : Store) (ps : List Point) (i : Int) :
    memId (upsertPoints s ps) i = (memId s i || ps.any (fun p => p.id == i)) := by
  induction ps generalizing s with
  | nil => simp [upsertPoints, memId]
  | cons p ps ih =>
    rw [upsertPoints_cons, ih, memId_upsertPoint, List.any_cons]
    cases memId s i <;> cases h : p.id == i <;> simp

theorem StoreWF_upsertPoint {s : Store} {p : Point}
    (hs : StoreWF s) (hp : p.payload.id = p.id) : StoreWF (upsertPoint s p) := by
  unfold upsertPoint
  split
  · intro q hq
    rw [List.mem_map] at hq
    obtain ⟨q0, hq0, rfl⟩ := hq
    by_cases h0 : q0.id = p.id
    · simp [h0, hp]
    · have h0q : ¬((q0.id == p.id) = true) := by simpa using h0
      rw [if_neg h0q]
      exact hs q0 hq0
  · intro q hq
    rw [List.mem_append] at hq
    rcases hq with h | h
    · exact hs q h
    · rw [List.mem_singleton] at h
      subst h
      exact hp

theorem StoreWF_upsertPoints {s : Store} {ps : List Point}
    (hs : StoreWF s) (hps : ∀ p ∈ ps, p.payload.id = p.id) :
    StoreWF (upsertPoints s ps) := by
  induction ps generalizing s with
  | nil => exact hs
  | cons p ps ih =>
    rw [upsertPoints_cons]
    exact ih (StoreWF_upsertPoint hs (hps p (List.mem_cons_self p ps)))
      (fun q hq => hps q (List.mem_cons_of_mem _ hq))

theorem StoreUniqueIds_upsertPoint {s : Store} (p : Point)
    (hs : StoreUniqueIds s) : StoreUniqueIds (upsertPoint s p) := by
  unfold StoreUniqueIds at *
  rw [upsertPoint_map_id]
  split
  · exact hs
  · rename_i h
    have hnot : p.id ∉ s.map Point.id := by
      intro hmem
      rw [List.mem_map] at hmem
      obtain ⟨q, hq, hqid⟩ := hmem
      exact h (List.any_eq_true.mpr ⟨q, hq, by simp [hqid]⟩)
    simp [List.nodup_append, hs, hnot]

theorem StoreUniqueIds_upsertPoints {s : Store} (ps : List Point)
    (hs : StoreUniqueIds s) : StoreUniqueIds (upsertPoints s ps) := by
  induction ps generalizing s with
  | nil => exact hs
  | cons p ps ih =>
    rw [upsertPoints_cons]
    exact ih (StoreUniqueIds_upsertPoint p hs)

theorem check_duplicate_eq_memId {s : Store} (hs : StoreWF s) (i : Int) :
    check_duplicate s i = memId s i := by
  unfold check_duplicate memId
  induction s with
  | nil => rfl
  | cons p s ih =>
    have hp : p.payload.id = p.id := hs p (List.mem_cons_self p s)
    rw [List.any_cons, List.any_cons, hp,
      ih (fun q hq => hs q (List.mem_cons_of_mem _ hq))]

theorem buildPoints_all_dup (emb : JsonVal → EmbedVal) (s : Store)
    (rs : List CanonicalRecord) (h : ∀ r ∈ rs, check_duplicate s r.id = true) :
    buildPoints emb s rs = ([], rs.length) := by
  induction rs with
  | nil => rfl
  | cons r rs ih =>
    rw [buildPoints, ih (fun r hr => h r (List.mem_cons_of_mem _ hr)),
      h r (List.mem_cons_self r rs)]
    simp

theorem buildPoints_wf (emb : JsonVal → EmbedVal) (s : Store)
    (rs : List CanonicalRecord) :
    ∀ p ∈ (buildPoints emb s rs).1, p.payload.id = p.id ∧ ∃ r ∈ rs, r.id = p.id := by
  induction rs with
  | nil => intro p hp; simp [buildPoints] at hp
  | cons r rs ih =>
    intro p hp
    rw [buildPoints] at hp
    by_cases hdup : check_duplicate s r.id
    · rw [if_pos hdup] at hp
      obtain ⟨h1, rr, hrr, h2⟩ := ih p hp
      exact ⟨h1, rr, List.mem_cons_of_mem _ hrr, h2⟩
    · rw [if_neg hdup] at hp
      cases hn : normalizeEmbedding (emb r.prompt) with
      | none =>
        rw [hn] at hp
        obtain ⟨h1, rr, hrr, h2⟩ := ih p hp
        exact ⟨h1, rr, List.mem_cons_of_mem _ hrr, h2⟩
      | some v =>
        rw [hn] at hp
        rcases List.mem_cons.mp hp with h | h
        · subst h
          exact ⟨rfl, r, List.mem_cons_self r rs, rfl⟩
        · obtain ⟨h1, rr, hrr, h2⟩ := ih p h
          exact ⟨h1, rr, List.mem_cons_of_mem _ hrr, h2⟩

theorem buildPoints_covers (emb : JsonVal → EmbedVal) (s : Store)
    (rs : List CanonicalRecord)
    (hemb : ∀ r ∈ rs, (normalizeEmbedding (emb r.prompt)).isSome) :
    ∀ r ∈ rs, check_duplicate s r.id = true ∨
      (buildPoints emb s rs).1.any (fun p => p.id == r.id) = true := by
  induction rs with
  | nil => intro r hr; simp at hr
  | cons r0 rs ih =>
    intro r hr
    rw [buildPoints]
    by_cases hdup : check_duplicate s r0.id
    · rcases List.mem_cons.mp hr with h | h
      · subst h; exact Or.inl hdup
      · rcases ih (fun q hq => hemb q (List.mem_cons_of_mem _ hq)) r h with h1 | h1
        · exact Or.inl h1
        · rw [if_pos hdup]
          exact Or.inr h1
    · rw [if_neg hdup]
      cases hn : normalizeEmbedding (emb r0.prompt) with
      | none =>
        have := hemb r0 (List.mem_cons_self r0 rs)
        rw [hn] at this
        simp at this
      | some v =>
        rcases List.mem_cons.mp hr with h | h
        · subst h
          exact Or.inr (by simp)
        · rcases ih (fun q hq => hemb q (List.mem_cons_of_mem _ hq)) r h with h1 | h1
          · exact Or.inl h1
          · refine Or.inr ?_
            rw [List.any_cons, h1]
            simp

theorem runSubBatches_no_fail (s : Store) (chunks : List (List Point)) (idx : Nat) :
    runSubBatches (fun _ => false) s chunks idx =
      ⟨chunks.foldl upsertPoints s, false, chunks⟩ := by
  induction chunks generalizing s idx with
  | nil => rfl
  | cons c cs ih => rw [runSubBatches, ih]; simp

theorem chunk50_foldl (ps : List Point) (s : Store) :
    (chunk50 ps).foldl upsertPoints s = upsertPoints s ps := by
  induction ps using chunk50.induct generalizing s with
  | case1 ps h =>
    rw [chunk50, if_pos h]
    rw [List.isEmpty_iff] at h
    subst h
    rfl
  | case2 ps h ih =>
    rw [chunk50, if_neg h, List.foldl_cons, ih]
    conv_rhs => rw [← List.take_append_drop 50 ps]
    unfold upsertPoints
    rw [List.foldl_append]

theorem store_in_qdrant_no_fail (emb : JsonVal → EmbedVal) (s : Store)
    (rs : List CanonicalRecord) :
    store_in_qdrant emb (fun _ => false) s rs =
      { store := upsertPoints s (buildPoints emb s rs).1
        raised := false
        submitted := chunk50 (buildPoints emb s rs).1
        storedCount := (buildPoints emb s rs).1.length
        skippedCount := (buildPoints emb s rs).2
        returned := PyReturn.none } := by
  simp only [store_in_qdrant]
  rw [runSubBatches_no_fail, chunk50_foldl]

theorem memId_after_write (emb : JsonVal → EmbedVal) (s : Store)
    (rs : List CanonicalRecord) (hs : StoreWF s)
    (hemb : ∀ r ∈ rs, (normalizeEmbedding (emb r.prompt)).isSome) :
    ∀ r ∈ rs, memId (upsertPoints s (buildPoints emb s rs).1) r.id = true := by
  intro r hr
  rw [memId_upsertPoints]
  rcases buildPoints_covers emb s rs hemb r hr with h | h
  · rw [check_duplicate_eq_memId hs] at h
    rw [h]
    rfl
  · rw [h]
    simp

theorem idCount_eq_one {s : Store} (hnodup : StoreUniqueIds s) (i : Int)
    (hmem : memId s i = true) : idCount s i = 1 := by
  unfold idCount
  unfold StoreUniqueIds at hnodup
  unfold memId at hmem
  induction s with
  | nil => simp at hmem
  | cons p s ih =>
    rw [List.any_cons] at hmem
    rw [List.map_cons, List.nodup_cons] at hnodup
    by_cases hp : p.id = i
    · rw [List.filter_cons_of_pos (by simp [hp])]
      have hrest : (s.filter (fun q => q.id == i)).length = 0 := by
        rw [List.length_eq_zero, List.filter_eq_nil_iff]
        intro q hq
        simp only [beq_iff_eq]
        intro hqi
        exact hnodup.1 (by rw [← hp] at hqi; exact hqi ▸ List.mem_map_of_mem Point.id hq)
      rw [List.length_cons, hrest]
    · rw [List.filter_cons_of_neg (by simp [hp])]
      apply ih hnodup.2
      rcases (by simpa using hmem : p.id = i ∨ (s.any fun q => q.id == i) = true) with h | h
      · exact absurd h hp
      · exact h

theorem runSubBatches_first_failure (fails : Nat → Bool) :
    ∀ (k : Nat) (chunks : List (List Point)) (s : Store) (idx : Nat),
      fails (idx + k) = true → (∀ j < k, fails (idx + j) = false) →
      k < chunks.length →
      runSubBatches fails s chunks idx =
        ⟨(chunks.take k).foldl upsertPoints s, true, chunks.take k⟩ := by
  intro k
  induction k with
  | zero =>
    intro chunks s idx hk _ hlen
    cases chunks with
    | nil => simp at hlen
    | cons c cs =>
      rw [runSubBatches, Nat.add_zero] at *
      rw [hk]
      simp
  | succ k ih =>
    intro chunks s idx hk hlt hlen
    cases chunks with
    | nil => simp at hlen
    | cons c cs =>
      have h0 : fails idx = false := by
        have := hlt 0 (Nat.succ_pos k)
        rwa [Nat.add_zero] at this
      rw [runSubBatches, h0]
      have hk' : fails (idx + 1 + k) = true := by
        rw [show idx + 1 + k = idx + (k + 1) by omega]
        exact hk
      have hlt' : ∀ j < k, fails (idx + 1 + j) = false := by
        intro j hj
        rw [show idx + 1 + j = idx + (j + 1) by omega]
        exact hlt (j + 1) (Nat.succ_lt_succ hj)
      have hlen' : k < cs.length := by
        rw [List.length_cons] at hlen
        omega
      rw [ih cs (upsertPoints s c) (idx + 1) hk' hlt' hlen']
      simp [List.take_cons, List.foldl_cons]

theorem process_item_noId (kvs : List (String × JsonVal))
    (h : pyTruthy ((jsonGet kvs "id").getD .null) = false) :
    process_item (.obj kvs) = .error .noId := by
  simp [process_item, h]

theorem process_item_invalidId (kvs : List (String × JsonVal))
    (h1 : pyTruthy ((jsonGet kvs "id").getD .null) = true)
    (h2 : pyIntOfString (pyStr ((jsonGet kvs "id").getD .null)) = Option.none) :
    process_item (.obj kvs) = .error .invalidIdFormat := by
  simp [process_item, h1, h2]

theorem process_item_noBaseModel (kvs : List (String × JsonVal)) (n : Int)
    (h1 : pyTruthy ((jsonGet kvs "id").getD .null) = true)
    (h2 : pyIntOfString (pyStr ((jsonGet kvs "id").getD .null)) = some n)
    (h3 : pyTruthy ((jsonGet kvs "baseModel").getD .null) = false) :
    process_item (.obj kvs) = .error .noBaseModel := by
  simp [process_item, h1, h2, h3]

theorem process_item_unsupportedModel (kvs : List (String × JsonVal)) (n : Int)
    (h1 : pyTruthy ((jsonGet kvs "id").getD .null) = true)
    (h2 : pyIntOfString (pyStr ((jsonGet kvs "id").getD .null)) = some n)
    (h3 : pyTruthy ((jsonGet kvs "baseModel").getD .null) = true)
    (h4 : inAllowedModels ((jsonGet kvs "baseModel").getD .null) = false) :
    process_item (.obj kvs) = .error .unsupportedModel := by
  simp [process_item, h1, h2, h3, h4]

theorem process_item_invalidMeta (kvs : List (String × JsonVal)) (n : Int)
    (h1 : pyTruthy ((jsonGet kvs "id").getD .null) = true)
    (h2 : pyIntOfString (pyStr ((jsonGet kvs "id").getD .null)) = some n)
    (h3 : pyTruthy ((jsonGet kvs "baseModel").getD .null) = true)
    (h4 : inAllowedModels ((jsonGet kvs "baseModel").getD .null) = true)
    (h5 : ∀ mkvs, (jsonGet kvs "meta").getD .null ≠ .obj mkvs) :
    process_item (.obj kvs) = .error .invalidMeta := by
  cases hmv : (jsonGet kvs "meta").getD JsonVal.null with
  | null => simp [process_item, h1, h2, h3, h4, hmv]
  | bool b => simp [process_item, h1, h2, h3, h4, hmv]
  | int m => simp [process_item, h1, h2, h3, h4, hmv]
  | str s => simp [process_item, h1, h2, h3, h4, hmv]
  | arr xs => simp [process_item, h1, h2, h3, h4, hmv]
  | obj mkvs => exact absurd hmv (h5 mkvs)

theorem process_item_noPrompt (kvs mkvs : List (String × JsonVal)) (n : Int)
    (h1 : pyTruthy ((jsonGet kvs "id").getD .null) = true)
    (h2 : pyIntOfString (pyStr ((jsonGet kvs "id").getD .null)) = some n)
    (h3 : pyTruthy ((jsonGet kvs "baseModel").getD .null) = true)
    (h4 : inAllowedModels ((jsonGet kvs "baseModel").getD .null) = true)
    (h5 : (jsonGet kvs "meta").getD .null = .obj mkvs)
    (h6 : pyTruthy ((jsonGet mkvs "prompt").getD .null) = false) :
    process_item (.obj kvs) = .error .noPrompt := by
  simp [process_item, h1, h2, h3, h4, h5, h6]

theorem process_item_ok (kvs mkvs : List (String × JsonVal)) (n : Int)
    (h1 : pyTruthy ((jsonGet kvs "id").getD .null) = true)
    (h2 : pyIntOfString (pyStr ((jsonGet kvs "id").getD .null)) = some n)
    (h3 : pyTruthy ((jsonGet kvs "baseModel").getD .null) = true)
    (h4 : inAllowedModels ((jsonGet kvs "baseModel").getD .null) = true)
    (h5 : (jsonGet kvs "meta").getD .null = .obj mkvs)
    (h6 : pyTruthy ((jsonGet mkvs "prompt").getD .null) = true) :
    (process_item (.obj kvs)).isOk = true := by
  simp [process_item, h1, h2, h3, h4, h5, h6, Except.isOk, Except.toBool]

theorem loopBody_requests (env : ApiEnv) (target : Nat) (prev : Int)
    (bIdx : Nat) (st : RunState) :
    (stepState (loopBody env target prev bIdx st)).requests =
      st.requests ++ [(st.cursor, min BATCH_SIZE (target - st.total_processed))] := by
  simp only [loopBody]
  repeat' split
  all_goals rfl

theorem fetchLoop_requests_prefix (env : ApiEnv) (target : Nat) (prev : Int) :
    ∀ (fuel bIdx : Nat) (st : RunState),
      ∃ tail, (fetchLoop env target prev fuel bIdx st).1.requests = st.requests ++ tail := by
  intro fuel
  induction fuel with
  | zero => exact fun _ st => ⟨[], by simp [fetchLoop]⟩
  | succ fuel ih =>
    intro bIdx st
    rw [fetchLoop]
    by_cases hguard : st.total_processed < target
    · rw [if_pos hguard]
      have hreq := loopBody_requests env target prev bIdx st
      cases hlb : loopBody env target prev bIdx st with
      | next st' =>
        obtain ⟨tail, ht⟩ := ih (bIdx + 1) st'
        rw [hlb] at hreq
        simp only [stepState] at hreq
        exact ⟨_, by rw [ht, hreq, List.append_assoc]⟩
      | stop st' =>
        rw [hlb] at hreq
        simp only [stepState] at hreq
        exact ⟨_, hreq⟩
      | raised st' =>
        rw [hlb] at hreq
        simp only [stepState] at hreq
        exact ⟨_, hreq⟩
    · rw [if_neg hguard]
      exact ⟨[], by simp⟩

theorem fetchLoop_requests_bounded (env : ApiEnv) (target : Nat) (prev : Int) :
    ∀ (fuel bIdx : Nat) (st : RunState),
      (∀ q ∈ st.requests, q.2 ≤ BATCH_SIZE) →
      ∀ q ∈ (fetchLoop env target prev fuel bIdx st).1.requests, q.2 ≤ BATCH_SIZE := by
  intro fuel
  induction fuel with
  | zero =>
    intro _ st hst
    simpa [fetchLoop] using hst
  | succ fuel ih =>
    intro bIdx st hst
    rw [fetchLoop]
    by_cases hguard : st.total_processed < target
    · rw [if_pos hguard]
      have hreq := loopBody_requests env target prev bIdx st
      have hst' : ∀ st'', stepState (loopBody env target prev bIdx st) = st'' →
          ∀ q ∈ st''.requests, q.2 ≤ BATCH_SIZE := by
        intro st'' heq q hq
        rw [← heq, hreq] at hq
        rcases List.mem_append.mp hq with h | h
        · exact hst q h
        · rw [List.mem_singleton] at h
          subst h
          exact Nat.min_le_left _ _
      cases hlb : loopBody env target prev bIdx st with
      | next st' => exact ih (bIdx + 1) st' (hst' st' (by rw [hlb]; rfl))
      | stop st' => exact hst' st' (by rw [hlb]; rfl)
      | raised st' => exact hst' st' (by rw [hlb]; rfl)
    · rw [if_neg hguard]
      exact hst

theorem fetchLoop_stop (env : ApiEnv) (target : Nat) (prev : Int)
    (fuel bIdx : Nat) (st st' : RunState)
    (hguard : st.total_processed < target)
    (hlb : loopBody env target prev bIdx st = .stop st') :
    fetchLoop env target prev (fuel + 1) bIdx st = (st', false) := by
  rw [fetchLoop, if_pos hguard, hlb]

theorem loopBody_zero_valid (env : ApiEnv) (target : Nat) (prev : Int)
    (bIdx : Nat) (st : RunState) (items : List JsonVal) (next : String)
    (hapi : env.api st.cursor (min BATCH_SIZE (target - st.total_processed)) =
      .page items next)
    (hne : items ≠ [])
    (hzero : items.filterMap (fun it => (process_item it).toOption) = [])
    (hnext : next ≠ "") :
    loopBody env target prev bIdx st =
      .next { st with
        requests := st.requests ++
          [(st.cursor, min BATCH_SIZE (target - st.total_processed))]
        cursor := next } := by
  have hItems : items.isEmpty = false := by
    cases items with
    | nil => exact absurd rfl hne
    | cons a l => rfl
  simp only [loopBody, hapi, hItems, hzero]
  simp [hnext]

theorem loopBody_store_raised (env : ApiEnv) (target : Nat) (prev : Int)
    (bIdx : Nat) (st : RunState) (items : List JsonVal) (next : String)
    (hapi : env.api st.cursor (min BATCH_SIZE (target - st.total_processed)) =
      .page items next)
    (hproc : items.filterMap (fun it => (process_item it).toOption) ≠ [])
    (hraised : (store_in_qdrant env.emb (env.subFails bIdx) st.store
      (items.filterMap (fun it => (process_item it).toOption))).raised = true) :
    loopBody env target prev bIdx st =
      .stop { st with
        requests := st.requests ++
          [(st.cursor, min BATCH_SIZE (target - st.total_processed))]
        store := (store_in_qdrant env.emb (env.subFails bIdx) st.store
          (items.filterMap (fun it => (process_item it).toOption))).store } := by
  have hItems : items.isEmpty = false := by
    cases hi : items with
    | nil => rw [hi] at hproc; simp at hproc
    | cons a l => rfl
  have hp : (items.filterMap (fun it => (process_item it).toOption)).isEmpty = false := by
    cases hi : items.filterMap (fun it => (process_item it).toOption) with
    | nil => exact absurd hi hproc
    | cons a l => rfl
  simp only [loopBody, hapi, hItems, hp, hraised]
  simp

theorem loopBody_file_changed (env : ApiEnv) (target : Nat) (prev : Int)
    (bIdx : Nat) (st : RunState)
    (hne : (stepState (loopBody env target prev bIdx st)).file ≠ st.file) :
    ∃ items next,
      env.api st.cursor (min BATCH_SIZE (target - st.total_processed)) =
        .page items next ∧
      items.filterMap (fun it => (process_item it).toOption) ≠ [] ∧
      (store_in_qdrant env.emb (env.subFails bIdx) st.store
        (items.filterMap (fun it => (process_item it).toOption))).raised = false ∧
      (stepState (loopBody env target prev bIdx st)).file =
        save_cursor st.file next
          (prev + (st.total_processed +
            (items.filterMap (fun it => (process_item it).toOption)).length)) .ok := by
  revert hne
  simp only [loopBody]
  cases hapi : env.api st.cursor (min BATCH_SIZE (target - st.total_processed)) with
  | httpError => intro hne; exact absurd rfl hne
  | invalidFormat => intro hne; exact absurd rfl hne
  | page items next =>
    by_cases hItems : items.isEmpty
    · simp only [hItems]
      intro hne
      exact absurd rfl hne
    · simp only [Bool.not_eq_true] at hItems
      simp only [hItems]
      by_cases hproc : (items.filterMap (fun it => (process_item it).toOption)).isEmpty
      · simp only [hproc]
        by_cases hnext : next = ""
        · simp only [if_pos hnext]
          intro hne
          exact absurd rfl hne
        · simp only [if_neg hnext]
          intro hne
          exact absurd rfl hne
      · simp only [Bool.not_eq_true] at hproc
        simp only [hproc]
        by_cases hraised : (store_in_qdrant env.emb (env.subFails bIdx) st.store
            (items.filterMap (fun it => (process_item it).toOption))).raised
        · simp only [hraised]
          intro hne
          exact absurd rfl hne
        · simp only [Bool.not_eq_true] at hraised
          simp only [hraised]
          intro _
          refine ⟨items, next, rfl, ?_, hraised, ?_⟩
          · intro h
            rw [h] at hproc
            simp at hproc
          · by_cases hnext : next = "" <;> simp [stepState, hnext]

theorem fetch_and_store_first_request (env : ApiEnv) (target fuel : Nat)
    (file0 : FileState) (store0 : Store) (htarget : 0 < target) :
    ((fetch_and_store env target (fuel + 1) file0 store0).1.requests).head? =
      some ((get_saved_state file0).1.1, min BATCH_SIZE target) := by
  unfold fetch_and_store
  rw [fetchLoop, if_pos (by simpa using htarget)]
  set st0 : RunState :=
    { store := store0
      file := (get_saved_state file0).2
      cursor := (get_saved_state file0).1.1
      total_processed := 0
      requests := [] } with hst0
  have hreq := loopBody_requests env target (get_saved_state file0).1.2 0 st0
  cases hlb : loopBody env target (get_saved_state file0).1.2 0 st0 with
  | next st' =>
    rw [hlb] at hreq
    simp only [stepState] at hreq
    obtain ⟨tail, ht⟩ :=
      fetchLoop_requests_prefix env target (get_saved_state file0).1.2 fuel 1 st'
    rw [ht, hreq]
    simp
  | stop st' =>
    rw [hlb] at hreq
    simp only [stepState] at hreq
    rw [hreq]
    simp
  | raised st' =>
    rw [hlb] at hreq
    simp only [stepState] at hreq
    rw [hreq]
    simp

/-! ## Claims -/

/-- C1, counterexample.  The claim says all three provider shapes — a
single flat vector of numbers, a singleton sequence containing one vector,
and a provider-native numeric array — normalize to the same flat float
sequence.  On the flat vector `[1, 2]` the write path takes
`embeddings[0]` (the number `1`), fails the list check and yields no
vector (the record is skipped), while the other two shapes both yield
`[1, 2]`. -/
theorem flat_vector_embedding_not_normalized :
    normalizeEmbedding (.list [.num 1, .num 2]) = Option.none ∧
    normalizeEmbedding (.list [.list [.num 1, .num 2]]) = some [1, 2] ∧
    normalizeEmbedding (.ndarray [1, 2]) = some [1, 2] :=
  ⟨rfl, rfl, rfl⟩

/-- C1, amended.  A singleton sequence containing one vector (as a numpy
array or as a plain list) and a provider-native numeric array all
normalize to the same flat float sequence; a flat vector of numbers does
NOT — its first element is extracted in place of the list, the list check
fails, and the record is skipped (logged) rather than aborting the batch,
as is any record whose embedding cannot be normalized. -/
theorem embedding_normalization_shapes (v : List ℚ) (hv : v ≠ [])
    (emb : JsonVal → EmbedVal) (s : Store) (rs : List CanonicalRecord)
    (r : CanonicalRecord)
    (hbad : normalizeEmbedding (emb r.prompt) = Option.none)
    (hdup : check_duplicate s r.id = false) :
    normalizeEmbedding (.list [.ndarray v]) = some v ∧
    normalizeEmbedding (.list [.list (v.map EmbedVal.num)]) = some v ∧
    normalizeEmbedding (.ndarray v) = some v ∧
    normalizeEmbedding (.list (v.map EmbedVal.num)) = Option.none ∧
    buildPoints emb s (r :: rs) = buildPoints emb s rs :=
  ⟨normalizeEmbedding_singleton_ndarray v,
   normalizeEmbedding_singleton_list v,
   normalizeEmbedding_ndarray v,
   normalizeEmbedding_flat_list v hv,
   buildPoints_skips_bad_embedding emb s rs r hbad hdup⟩

/-- C1, witness: the amended theorem applied at vector `[1, 2]`, the
`None`-returning embedder, the empty store and `sampleRecord`. -/
theorem embedding_normalization_shapes_witness :
    normalizeEmbedding (.list [.ndarray [1, 2]]) = some [1, 2] ∧
    normalizeEmbedding (.list [.list ([(1 : ℚ), 2].map EmbedVal.num)]) = some [1, 2] ∧
    normalizeEmbedding (.ndarray [1, 2]) = some [1, 2] ∧
    normalizeEmbedding (.list ([(1 : ℚ), 2].map EmbedVal.num)) = Option.none ∧
    buildPoints badEmbedder [] (sampleRecord :: []) = buildPoints badEmbedder [] [] :=
  embedding_normalization_shapes [1, 2] (by simp) badEmbedder [] [] sampleRecord rfl rfl

/-- C3, counterexample.  The claim says a failed save leaves the
previously persisted state intact and readable.  With `{cursor: "abc",
total_processed: 42}` persisted, a save that fails during the write (the
source opens the target with mode `'w'`, truncating it in place; there is
no write-to-temp-then-replace) leaves the file malformed, and the next
load returns the empty default, not the previous state. -/
theorem failed_save_corrupts_previous_state :
    (get_saved_state (.content (cursorJson "abc" 42))).1 = ("abc", 42) ∧
    (get_saved_state (save_cursor (.content (cursorJson "abc" 42)) "xyz" 50
      (.failDuringWrite "\x7b\n  \"cursor\""))).1 = ("", 0) ∧
    (("abc", 42) : String × Int) ≠ ("", 0) :=
  ⟨rfl, rfl, by simp⟩

/-- C3, amended.  `_save_cursor` writes the target file in place: a save
failing before the file is opened leaves the prior state intact, but a
save failing during the write leaves the file malformed (the previously
persisted cursor state is lost); the next load then returns the empty
default state instead of raising. -/
theorem save_cursor_failure_behavior (fs : FileState) (c : String) (t : Int)
    (raw : String) :
    save_cursor fs c t .failBeforeOpen = fs ∧
    save_cursor fs c t (.failDuringWrite raw) = .malformed raw ∧
    (get_saved_state (.malformed raw)).1 = ("", 0) :=
  ⟨rfl, rfl, rfl⟩

/-- C5.  Saving cursor `c` with non-negative total `t` and loading returns
exactly `(c, t)`. -/
theorem cursor_roundtrip (fs : FileState) (c : String) (t : Int)
    (_ht : 0 ≤ t) :
    (get_saved_state (save_cursor fs c t .ok)).1 = (c, t) := rfl

/-- C5, witness: `save(cursor="abc", total_processed=42)` then `load()`
yields `("abc", 42)`. -/
theorem cursor_roundtrip_witness :
    (get_saved_state (save_cursor .absent "abc" 42 .ok)).1 = ("abc", 42) :=
  cursor_roundtrip .absent "abc" 42 (by decide)

/-- C6.  Loading an absent, unreadable, or malformed (invalid JSON) state
file returns the empty default `("", 0)`; being a total function of the
file state, the embedded load never raises. -/
theorem load_corrupt_state_defaults (fs : FileState)
    (h : fs = .absent ∨ fs = .unreadable ∨ ∃ raw, fs = .malformed raw) :
    (get_saved_state fs).1 = ("", 0) := by
  rcases h with h | h | ⟨raw, h⟩ <;> subst h <;> rfl

/-- C6, witness: loading the malformed file content `not json` yields the
default state. -/
theorem load_corrupt_state_defaults_witness :
    (get_saved_state (.malformed "not json")).1 = ("", 0) :=
  load_corrupt_state_defaults (.malformed "not json")
    (Or.inr (Or.inr ⟨"not json", rfl⟩))

/-- C9.  An item whose `id` field holds the integer `0` or the empty
string is rejected with the no-id reason, even though `int(str(0))`
succeeds: the check tests truthiness, not presence, so id 0 can never be
stored. -/
theorem falsy_id_rejected (kvs : List (String × JsonVal))
    (h : jsonGet kvs "id" = some (.int 0) ∨ jsonGet kvs "id" = some (.str "")) :
    process_item (.obj kvs) = .error .noId ∧
    pyIntOfString (pyStr (.int 0)) = some 0 := by
  refine ⟨?_, by rw [pyStr_int]; decide⟩
  apply process_item_noId
  rcases h with h | h <;> rw [h] <;> rfl

/-- C9, witness: the item `{"id": 0, "baseModel": "Pony",
"meta": {"prompt": "a cat"}}` is rejected for its falsy id. -/
theorem falsy_id_rejected_witness :
    process_item (.obj [("id", .int 0), ("baseModel", .str "Pony"),
      ("meta", .obj [("prompt", .str "a cat")])]) = .error .noId ∧
    pyIntOfString (pyStr (.int 0)) = some 0 :=
  falsy_id_rejected
    [("id", .int 0), ("baseModel", .str "Pony"),
      ("meta", .obj [("prompt", .str "a cat")])]
    (Or.inl rfl)

/-- C4, counterexample.  The claim says `normalize` rejects exactly when the
id is missing/non-coercible, the model is missing/non-allow-listed, the
meta block is missing/non-mapping, or the prompt is missing/empty.  The
item `{"id": 0, "baseModel": "Pony", "meta": {"prompt": "a cat"}}` has a
present, integer-coercible id, an allow-listed model, a mapping meta and a
non-empty prompt — none of the four conditions — yet it is rejected
(`if not item_id` tests truthiness, and `0` is falsy). -/
theorem id_zero_rejected_despite_coercible :
    process_item (.obj [("id", .int 0), ("baseModel", .str "Pony"),
      ("meta", .obj [("prompt", .str "a cat")])]) = .error .noId ∧
    jsonGet [("id", .int 0), ("baseModel", .str "Pony"),
      ("meta", .obj [("prompt", .str "a cat")])] "id" = some (.int 0) ∧
    pyIntOfString (pyStr (.int 0)) = some 0 ∧
    inAllowedModels (.str "Pony") = true ∧
    pyTruthy (.str "a cat") = true :=
  ⟨rfl, rfl, by rw [pyStr_int]; decide, by decide, by decide⟩

/-- C4, amended.  For an item that is a mapping, `normalize` rejects
exactly when, checked in this order: the id is missing, falsy (`0` or
`""`), or not coercible to an integer; the base-model category is missing,
falsy, or not in the allow-list; the metadata block is missing or not a
mapping; or the prompt text is missing or empty.  The ordered conjuncts
pin the reason reported at each stage. -/
theorem process_item_rejection_characterization (kvs : List (String × JsonVal)) :
    ((process_item (.obj kvs)).isOk = false ↔
      (pyTruthy ((jsonGet kvs "id").getD .null) = false ∨
        pyIntOfString (pyStr ((jsonGet kvs "id").getD .null)) = Option.none) ∨
      (pyTruthy ((jsonGet kvs "baseModel").getD .null) = false ∨
        inAllowedModels ((jsonGet kvs "baseModel").getD .null) = false) ∨
      (∀ mkvs, (jsonGet kvs "meta").getD .null ≠ .obj mkvs) ∨
      (∃ mkvs, (jsonGet kvs "meta").getD .null = .obj mkvs ∧
        pyTruthy ((jsonGet mkvs "prompt").getD .null) = false)) ∧
    (pyTruthy ((jsonGet kvs "id").getD .null) = false →
      process_item (.obj kvs) = .error .noId) ∧
    (pyTruthy ((jsonGet kvs "id").getD .null) = true →
      pyIntOfString (pyStr ((jsonGet kvs "id").getD .null)) = Option.none →
      process_item (.obj kvs) = .error .invalidIdFormat) ∧
    (∀ n : Int, pyTruthy ((jsonGet kvs "id").getD .null) = true →
      pyIntOfString (pyStr ((jsonGet kvs "id").getD .null)) = some n →
      pyTruthy ((jsonGet kvs "baseModel").getD .null) = false →
      process_item (.obj kvs) = .error .noBaseModel) ∧
    (∀ n : Int, pyTruthy ((jsonGet kvs "id").getD .null) = true →
      pyIntOfString (pyStr ((jsonGet kvs "id").getD .null)) = some n →
      pyTruthy ((jsonGet kvs "baseModel").getD .null) = true →
      inAllowedModels ((jsonGet kvs "baseModel").getD .null) = false →
      process_item (.obj kvs) = .error .unsupportedModel) ∧
    (∀ n : Int, pyTruthy ((jsonGet kvs "id").getD .null) = true →
      pyIntOfString (pyStr ((jsonGet kvs "id").getD .null)) = some n →
      pyTruthy ((jsonGet kvs "baseModel").getD .null) = true →
      inAllowedModels ((jsonGet kvs "baseModel").getD .null) = true →
      (∀ mkvs, (jsonGet kvs "meta").getD .null ≠ .obj mkvs) →
      process_item (.obj kvs) = .error .invalidMeta) ∧
    (∀ (n : Int) (mkvs : List (String × JsonVal)),
      pyTruthy ((jsonGet kvs "id").getD .null) = true →
      pyIntOfString (pyStr ((jsonGet kvs "id").getD .null)) = some n →
      pyTruthy ((jsonGet kvs "baseModel").getD .null) = true →
      inAllowedModels ((jsonGet kvs "baseModel").getD .null) = true →
      (jsonGet kvs "meta").getD .null = .obj mkvs →
      pyTruthy ((jsonGet mkvs "prompt").getD .null) = false →
      process_item (.obj kvs) = .error .noPrompt) := by
  refine ⟨?_, process_item_noId kvs, process_item_invalidId kvs,
    fun n => process_item_noBaseModel kvs n,
    fun n => process_item_unsupportedModel kvs n,
    fun n => process_item_invalidMeta kvs n,
    fun n mkvs => process_item_noPrompt kvs mkvs n⟩
  constructor
  · intro hfail
    by_contra hcon
    push_neg at hcon
    obtain ⟨⟨h1, h2⟩, ⟨h3, h4⟩, h5, h6⟩ := hcon
    simp only [Bool.not_eq_false] at h1 h3 h4
    obtain ⟨mkvs, hmv⟩ := h5
    obtain ⟨n, hn⟩ := Option.ne_none_iff_exists'.mp h2
    have h6' : pyTruthy ((jsonGet mkvs "prompt").getD .null) = true := by
      have := h6 mkvs hmv
      cases hb : pyTruthy ((jsonGet mkvs "prompt").getD .null) with
      | false => exact absurd hb this
      | true => rfl
    have hok := process_item_ok kvs mkvs n h1 hn h3 h4 hmv h6'
    rw [hok] at hfail
    exact Bool.noConfusion hfail
  · intro hdisj
    by_cases h1 : pyTruthy ((jsonGet kvs "id").getD .null) = true
    · cases hn : pyIntOfString (pyStr ((jsonGet kvs "id").getD .null)) with
      | none => rw [process_item_invalidId kvs h1 hn]; rfl
      | some n =>
        by_cases h3 : pyTruthy ((jsonGet kvs "baseModel").getD .null) = true
        · by_cases h4 : inAllowedModels ((jsonGet kvs "baseModel").getD .null) = true
          · cases hmv : (jsonGet kvs "meta").getD JsonVal.null with
            | null => rw [process_item_invalidMeta kvs n h1 hn h3 h4
                (by rw [hmv]; intro mkvs h; exact JsonVal.noConfusion h)]; rfl
            | bool b => rw [process_item_invalidMeta kvs n h1 hn h3 h4
                (by rw [hmv]; intro mkvs h; exact JsonVal.noConfusion h)]; rfl
            | int m => rw [process_item_invalidMeta kvs n h1 hn h3 h4
                (by rw [hmv]; intro mkvs h; exact JsonVal.noConfusion h)]; rfl
            | str s => rw [process_item_invalidMeta kvs n h1 hn h3 h4
                (by rw [hmv]; intro mkvs h; exact JsonVal.noConfusion h)]; rfl
            | arr xs => rw [process_item_invalidMeta kvs n h1 hn h3 h4
                (by rw [hmv]; intro mkvs h; exact JsonVal.noConfusion h)]; rfl
            | obj mkvs =>
              by_cases h6 : pyTruthy ((jsonGet mkvs "prompt").getD .null) = true
              · exfalso
                rcases hdisj with (h | h) | (h | h) | h | h
                · rw [h1] at h; exact Bool.noConfusion h
                · rw [hn] at h; exact Option.noConfusion h
                · rw [h3] at h; exact Bool.noConfusion h
                · rw [h4] at h; exact Bool.noConfusion h
                · exact h mkvs hmv
                · obtain ⟨mkvs2, hmv2, hp2⟩ := h
                  rw [hmv] at hmv2
                  have : mkvs = mkvs2 := by
                    injection hmv2
                  rw [← this] at hp2
                  rw [h6] at hp2
                  exact Bool.noConfusion hp2
              · simp only [Bool.not_eq_true] at h6
                rw [process_item_noPrompt kvs mkvs n h1 hn h3 h4 hmv h6]; rfl
          · simp only [Bool.not_eq_true] at h4
            rw [process_item_unsupportedModel kvs n h1 hn h3 h4]; rfl
        · simp only [Bool.not_eq_true] at h3
          rw [process_item_noBaseModel kvs n h1 hn h3]; rfl
    · simp only [Bool.not_eq_true] at h1
      rw [process_item_noId kvs h1]; rfl

/-- C4, witness: the amended characterization applied to the item
`{"id": 5, "baseModel": "SDXL", "meta": {"prompt": "x"}}`, whose model is
outside the allow-list, deriving its rejection. -/
theorem process_item_rejection_characterization_witness :
    (process_item (.obj [("id", .int 5), ("baseModel", .str "SDXL"),
      ("meta", .obj [("prompt", .str "x")])])).isOk = false :=
  (process_item_rejection_characterization
    [("id", .int 5), ("baseModel", .str "SDXL"),
      ("meta", .obj [("prompt", .str "x")])]).1.mpr
    (Or.inr (Or.inl (Or.inr (by decide))))

/-- C2, counterexample.  The claim says `write_batch` reports the counts
`{stored, skipped_duplicate}` to its caller.  Storing one fresh record
computes `stored = 1, skipped_duplicate = 0` — but only into the log
lines; the function is annotated `-> None` and has no `return` statement,
so the caller receives `None`, not the counts mapping. -/
theorem write_batch_returns_none_not_counts :
    (store_in_qdrant goodEmbedder (fun _ => false) [] [sampleRecord]).returned =
      PyReturn.none ∧
    (store_in_qdrant goodEmbedder (fun _ => false) [] [sampleRecord]).storedCount = 1 ∧
    (store_in_qdrant goodEmbedder (fun _ => false) [] [sampleRecord]).skippedCount = 0 ∧
    PyReturn.none ≠ PyReturn.counts 1 0 :=
  ⟨rfl, rfl, rfl, by decide⟩

/-- C2, amended.  `write_batch` is idempotent with respect to stored ids:
with a well-formed store and records whose embeddings normalize, the
second identical call counts every record as a duplicate, stores none,
leaves the store untouched (no existing record is overwritten), and each
record's id is stored exactly once; the counts are computed and logged,
but the function returns `None` to its caller rather than the counts. -/
theorem write_batch_idempotent (emb : JsonVal → EmbedVal) (s0 : Store)
    (rs : List CanonicalRecord)
    (hwf : StoreWF s0) (hnodup : StoreUniqueIds s0)
    (hemb : ∀ r ∈ rs, (normalizeEmbedding (emb r.prompt)).isSome) :
    (store_in_qdrant emb (fun _ => false)
      (store_in_qdrant emb (fun _ => false) s0 rs).store rs).skippedCount =
        rs.length ∧
    (store_in_qdrant emb (fun _ => false)
      (store_in_qdrant emb (fun _ => false) s0 rs).store rs).storedCount = 0 ∧
    (store_in_qdrant emb (fun _ => false)
      (store_in_qdrant emb (fun _ => false) s0 rs).store rs).store =
      (store_in_qdrant emb (fun _ => false) s0 rs).store ∧
    (∀ r ∈ rs, idCount (store_in_qdrant emb (fun _ => false) s0 rs).store r.id = 1) ∧
    (store_in_qdrant emb (fun _ => false) s0 rs).raised = false ∧
    (store_in_qdrant emb (fun _ => false)
      (store_in_qdrant emb (fun _ => false) s0 rs).store rs).raised = false ∧
    (store_in_qdrant emb (fun _ => false)
      (store_in_qdrant emb (fun _ => false) s0 rs).store rs).returned =
        PyReturn.none := by
  have hptswf : ∀ p ∈ (buildPoints emb s0 rs).1, p.payload.id = p.id :=
    fun p hp => (buildPoints_wf emb s0 rs p hp).1
  have hwf1 : StoreWF (upsertPoints s0 (buildPoints emb s0 rs).1) :=
    StoreWF_upsertPoints hwf hptswf
  have hnodup1 : StoreUniqueIds (upsertPoints s0 (buildPoints emb s0 rs).1) :=
    StoreUniqueIds_upsertPoints _ hnodup
  have hmem1 : ∀ r ∈ rs,
      memId (upsertPoints s0 (buildPoints emb s0 rs).1) r.id = true :=
    memId_after_write emb s0 rs hwf hemb
  have hdup1 : ∀ r ∈ rs,
      check_duplicate (upsertPoints s0 (buildPoints emb s0 rs).1) r.id = true :=
    fun r hr => by rw [check_duplicate_eq_memId hwf1]; exact hmem1 r hr
  have hbp2 : buildPoints emb (upsertPoints s0 (buildPoints emb s0 rs).1) rs =
      ([], rs.length) :=
    buildPoints_all_dup emb _ rs hdup1
  rw [store_in_qdrant_no_fail emb s0 rs]
  simp only []
  rw [store_in_qdrant_no_fail emb _ rs, hbp2]
  constructor
  · rfl
  constructor
  · rfl
  constructor
  · rfl
  constructor
  · intro r hr
    exact idCount_eq_one hnodup1 r.id (hmem1 r hr)
  constructor
  · trivial
  constructor
  · rfl
  · rfl

/-- C2, witness: the amended theorem applied to the empty store and the
single record `sampleRecord` under the well-behaved embedder. -/
theorem write_batch_idempotent_witness :
    (store_in_qdrant goodEmbedder (fun _ => false)
      (store_in_qdrant goodEmbedder (fun _ => false) [] [sampleRecord]).store
      [sampleRecord]).skippedCount = [sampleRecord].length ∧
    (store_in_qdrant goodEmbedder (fun _ => false)
      (store_in_qdrant goodEmbedder (fun _ => false) [] [sampleRecord]).store
      [sampleRecord]).storedCount = 0 ∧
    (store_in_qdrant goodEmbedder (fun _ => false)
      (store_in_qdrant goodEmbedder (fun _ => false) [] [sampleRecord]).store
      [sampleRecord]).store =
      (store_in_qdrant goodEmbedder (fun _ => false) [] [sampleRecord]).store ∧
    (∀ r ∈ [sampleRecord],
      idCount (store_in_qdrant goodEmbedder (fun _ => false) [] [sampleRecord]).store
        r.id = 1) ∧
    (store_in_qdrant goodEmbedder (fun _ => false) [] [sampleRecord]).raised = false ∧
    (store_in_qdrant goodEmbedder (fun _ => false)
      (store_in_qdrant goodEmbedder (fun _ => false) [] [sampleRecord]).store
      [sampleRecord]).raised = false ∧
    (store_in_qdrant goodEmbedder (fun _ => false)
      (store_in_qdrant goodEmbedder (fun _ => false) [] [sampleRecord]).store
      [sampleRecord]).returned = PyReturn.none :=
  write_batch_idempotent goodEmbedder [] [sampleRecord]
    (fun p hp => absurd hp (List.not_mem_nil p))
    List.nodup_nil
    (fun _ _ => rfl)

/-- C7.  Every fetch request issued by a run carries `limit =
min(BATCH_SIZE, remaining)`, hence at most 200 items are requested per
call; in particular a run with target 500 issues a first request with
limit exactly 200. -/
theorem fetch_limit_capped (env : ApiEnv) (target fuel : Nat)
    (file0 : FileState) (store0 : Store) :
    (∀ q ∈ (fetch_and_store env target fuel file0 store0).1.requests, q.2 ≤ 200) ∧
    (∀ fuel2 : Nat,
      ((fetch_and_store env 500 (fuel2 + 1) file0 store0).1.requests).head? =
        some ((get_saved_state file0).1.1, 200)) := by
  constructor
  · intro q hq
    exact fetchLoop_requests_bounded env target (get_saved_state file0).1.2 fuel 0
      _ (fun q hq => absurd hq (List.not_mem_nil q)) q hq
  · intro fuel2
    have h := fetch_and_store_first_request env 500 fuel2 file0 store0 (by norm_num)
    simpa [BATCH_SIZE] using h

/-- C7, witness: against an environment answering every request with an
invalid body, a target-500 run issues exactly one request, with limit
200. -/
theorem fetch_limit_capped_witness :
    (∀ q ∈ (fetch_and_store stubEnv 500 3 .absent []).1.requests, q.2 ≤ 200) ∧
    (∀ fuel2 : Nat,
      ((fetch_and_store stubEnv 500 (fuel2 + 1) .absent []).1.requests).head? =
        some ((get_saved_state (.absent : FileState)).1.1, 200)) :=
  fetch_limit_capped stubEnv 500 3 .absent []

/-- C8.  If the upsert of the sub-batch at index `k` is the first to fail
within one write call, the call raises, exactly the sub-batches before `k`
were submitted (and stay committed in the store), and none after `k` is
attempted; at the orchestrator, a raising store call ends the iteration
with a break (no cursor save), and the loop then terminates without
issuing further fetches. -/
theorem sub_batch_failure_aborts_and_retains
    (emb : JsonVal → EmbedVal) (fails : Nat → Bool) (s : Store)
    (rs : List CanonicalRecord) (k : Nat)
    (hk : fails k = true) (hlt : ∀ j < k, fails j = false)
    (hklen : k < (chunk50 (buildPoints emb s rs).1).length) :
    (store_in_qdrant emb fails s rs).raised = true ∧
    (store_in_qdrant emb fails s rs).submitted =
      (chunk50 (buildPoints emb s rs).1).take k ∧
    (store_in_qdrant emb fails s rs).store =
      ((chunk50 (buildPoints emb s rs).1).take k).foldl upsertPoints s ∧
    (∀ (env : ApiEnv) (target : Nat) (prev : Int) (bIdx : Nat) (st : RunState)
        (items : List JsonVal) (next : String),
      env.api st.cursor (min BATCH_SIZE (target - st.total_processed)) =
        .page items next →
      items.filterMap (fun it => (process_item it).toOption) ≠ [] →
      (store_in_qdrant env.emb (env.subFails bIdx) st.store
        (items.filterMap (fun it => (process_item it).toOption))).raised = true →
      loopBody env target prev bIdx st =
        .stop { st with
          requests := st.requests ++
            [(st.cursor, min BATCH_SIZE (target - st.total_processed))]
          store := (store_in_qdrant env.emb (env.subFails bIdx) st.store
            (items.filterMap (fun it => (process_item it).toOption))).store }) ∧
    (∀ (env : ApiEnv) (target : Nat) (prev : Int) (fuel bIdx : Nat)
        (st st' : RunState),
      st.total_processed < target →
      loopBody env target prev bIdx st = .stop st' →
      fetchLoop env target prev (fuel + 1) bIdx st = (st', false)) := by
  have hrun := runSubBatches_first_failure fails k (chunk50 (buildPoints emb s rs).1)
    s 0 (by rwa [Nat.zero_add]) (fun j hj => by rw [Nat.zero_add]; exact hlt j hj) hklen
  refine ⟨?_, ?_, ?_,
    fun env target prev bIdx st items next => loopBody_store_raised env target prev bIdx st items next,
    fun env target prev fuel bIdx st st' => fetchLoop_stop env target prev fuel bIdx st st'⟩
  · show (runSubBatches fails s (chunk50 (buildPoints emb s rs).1) 0).raised = true
    rw [hrun]
  · show (runSubBatches fails s (chunk50 (buildPoints emb s rs).1) 0).submitted = _
    rw [hrun]
  · show (runSubBatches fails s (chunk50 (buildPoints emb s rs).1) 0).store = _
    rw [hrun]

/-- C8, witness: the theorem applied to a single-record write whose first
(and only) sub-batch fails, against the empty store. -/
theorem sub_batch_failure_aborts_and_retains_witness :
    (store_in_qdrant goodEmbedder (fun i => i == 0) [] [sampleRecord]).raised = true ∧
    (store_in_qdrant goodEmbedder (fun i => i == 0) [] [sampleRecord]).submitted =
      (chunk50 (buildPoints goodEmbedder [] [sampleRecord]).1).take 0 ∧
    (store_in_qdrant goodEmbedder (fun i => i == 0) [] [sampleRecord]).store =
      ((chunk50 (buildPoints goodEmbedder [] [sampleRecord]).1).take 0).foldl
        upsertPoints [] ∧
    (∀ (env : ApiEnv) (target : Nat) (prev : Int) (bIdx : Nat) (st : RunState)
        (items : List JsonVal) (next : String),
      env.api st.cursor (min BATCH_SIZE (target - st.total_processed)) =
        .page items next →
      items.filterMap (fun it => (process_item it).toOption) ≠ [] →
      (store_in_qdrant env.emb (env.subFails bIdx) st.store
        (items.filterMap (fun it => (process_item it).toOption))).raised = true →
      loopBody env target prev bIdx st =
        .stop { st with
          requests := st.requests ++
            [(st.cursor, min BATCH_SIZE (target - st.total_processed))]
          store := (store_in_qdrant env.emb (env.subFails bIdx) st.store
            (items.filterMap (fun it => (process_item it).toOption))).store }) ∧
    (∀ (env : ApiEnv) (target : Nat) (prev : Int) (fuel bIdx : Nat)
        (st st' : RunState),
      st.total_processed < target →
      loopBody env target prev bIdx st = .stop st' →
      fetchLoop env target prev (fuel + 1) bIdx st = (st', false)) :=
  sub_batch_failure_aborts_and_retains goodEmbedder (fun i => i == 0) [] [sampleRecord]
    0 rfl (fun j hj => absurd hj (Nat.not_lt_zero j))
    (by rw [show (buildPoints goodEmbedder [] [sampleRecord]).1 =
        [(⟨7, [1, 2], sampleRecord⟩ : Point)] from rfl, chunk50]
        simp)

/-- C10.  The cursor file is written only after a page that yielded at
least one valid record and whose store call succeeded: a fetched page with
zero valid records advances only the in-memory cursor (the file, store and
total are untouched) and the loop continues; any iteration that changes
the file did fetch a page with at least one valid record, saw the store
call succeed, and wrote that page's `nextCursor`; and a fresh run's first
fetch uses the persisted cursor, so pages consumed after the last save are
re-fetched on resume. -/
theorem cursor_saved_only_after_stored_page :
    (∀ (env : ApiEnv) (target : Nat) (prev : Int) (bIdx : Nat) (st : RunState)
        (items : List JsonVal) (next : String),
      env.api st.cursor (min BATCH_SIZE (target - st.total_processed)) =
        .page items next →
      items ≠ [] →
      items.filterMap (fun it => (process_item it).toOption) = [] →
      next ≠ "" →
      loopBody env target prev bIdx st =
        .next { st with
          requests := st.requests ++
            [(st.cursor, min BATCH_SIZE (target - st.total_processed))]
          cursor := next }) ∧
    (∀ (env : ApiEnv) (target : Nat) (prev : Int) (bIdx : Nat) (st : RunState),
      (stepState (loopBody env target prev bIdx st)).file ≠ st.file →
      ∃ items next,
        env.api st.cursor (min BATCH_SIZE (target - st.total_processed)) =
          .page items next ∧
        items.filterMap (fun it => (process_item it).toOption) ≠ [] ∧
        (store_in_qdrant env.emb (env.subFails bIdx) st.store
          (items.filterMap (fun it => (process_item it).toOption))).raised = false ∧
        (stepState (loopBody env target prev bIdx st)).file =
          save_cursor st.file next
            (prev + (st.total_processed +
              (items.filterMap (fun it => (process_item it).toOption)).length)) .ok) ∧
    (∀ (env : ApiEnv) (target fuel : Nat) (file0 : FileState) (store0 : Store),
      0 < target →
      ((fetch_and_store env target (fuel + 1) file0 store0).1.requests).head? =
        some ((get_saved_state file0).1.1, min BATCH_SIZE target)) :=
  ⟨loopBody_zero_valid,
   loopBody_file_changed,
   fun env target fuel file0 store0 h =>
     fetch_and_store_first_request env target fuel file0 store0 h⟩

/-- C10, witness: the zero-valid clause applied to an environment whose
page holds one id-less item: the in-memory cursor advances to `p1` while
the cursor file stays untouched. -/
theorem cursor_saved_only_after_stored_page_witness :
    loopBody zeroValidEnv 10 0 0 sampleRunState =
      .next { sampleRunState with
        requests := sampleRunState.requests ++
          [(sampleRunState.cursor,
            min BATCH_SIZE (10 - sampleRunState.total_processed))]
        cursor := "p1" } :=
  cursor_saved_only_after_stored_page.1 zeroValidEnv 10 0 0 sampleRunState
    [.obj []] "p1" rfl (by simp) rfl (by simp)
